import Mathlib

/-!
Shallow embedding of the hanp_humans_sim repository:
  * `src/multigoal_planner/src/multigoal_planner.cpp` (the multi-waypoint
    potential-field planner), and
  * `src/move_humans/src/move_humans.cpp` (the coordinator state machine,
    planning worker, execution cycle and request validation).

Machine doubles are modelled as exact rationals; the NaN/Inf distinction
needed by the quaternion check is modelled explicitly.  The external
collaborators (the `global_planner` potential solver and path extractors,
the orientation filter, the tf resolver) are not part of this repository
and enter the embedding as opaque function parameters bundled in an
environment structure.
-/

namespace HanpSim

/-- Agent (human) identifier as used throughout the repository. -/
abbrev HumanId := Nat

/-! ## Multigoal planner: data model (multigoal_planner.cpp) -/

/-- A stamped pose as used by the multigoal planner: frame tag, timestamp,
position and orientation.  Components are exact rationals. -/
structure PoseMG where
  frame : String
  stamp : Nat
  x : ℚ
  y : ℚ
  z : ℚ
  qx : ℚ
  qy : ℚ
  qz : ℚ
  qw : ℚ
deriving DecidableEq, Repr

/-- The costmap data the planner reads: cell sizes, world origin,
resolution and the character cost array (indexed row-major). -/
structure Costmap where
  sizeX : Nat
  sizeY : Nat
  originX : ℚ
  originY : ℚ
  resolution : ℚ
  charMap : Nat → Nat

/-- A filled potential array (the solver output), abstract contents. -/
abbrev PotArr := Nat → ℚ

/-- Environment of one `makePlans` call: the costmap snapshot, the
configured conversion offset, frame data, the clock, and the external
`global_planner` components (Dijkstra expansion, gradient path, grid
path, orientation filter) plus the external tf resolver.  These external
components are not code of this repository and are opaque parameters. -/
structure PlannerEnv where
  costmap : Costmap
  convert_offset : ℚ
  tf_prefix : String
  planner_frame : String
  /-- External `tf::resolve(prefix, frame)`. -/
  resolve : String → String → String
  /-- Current time `ros::Time::now()`. -/
  now : Nat
  /-- External `DijkstraExpansion::calculatePotentials`; `none` models a
  `false` return (no legal potential found), `some` the filled array. -/
  calculatePotentials : (Nat → Nat) → ℚ → ℚ → ℚ → ℚ → Nat → Option PotArr
  /-- External `GradientPath::getPath`; `none` models failure. -/
  gradientPath : PotArr → ℚ → ℚ → ℚ → ℚ → Option (List (ℚ × ℚ))
  /-- External `GridPath::getPath` (the fallback); `none` models failure. -/
  gridPath : PotArr → ℚ → ℚ → ℚ → ℚ → Option (List (ℚ × ℚ))
  /-- External `OrientationFilter::processPath`: assigns an orientation to
  each pose of the path in place (length and positions preserved); the
  function gives the orientation of the pose at an index from the start
  pose, the whole path and the index. -/
  orientOf : PoseMG → List PoseMG → Nat → ℚ × ℚ × ℚ × ℚ
  /-- `initialized_` flag of the planner object. -/
  init_flag : Bool

/-- `MultiGoalPlanner::worldToMap` (multigoal_planner.cpp:288-301).
Returns the fractional cell coordinates, or `none` when the function
returns `false`.  Note the code checks `wx < origin_x || wy < origin_y`
before conversion but places no lower bound on the converted
coordinates. -/
def worldToMap (env : PlannerEnv) (wx wy : ℚ) : Option (ℚ × ℚ) :=
  let ox := env.costmap.originX
  let oy := env.costmap.originY
  let res := env.costmap.resolution
  if wx < ox ∨ wy < oy then none
  else
    let mx := (wx - ox) / res - env.convert_offset
    let my := (wy - oy) / res - env.convert_offset
    if mx < (env.costmap.sizeX : ℚ) ∧ my < (env.costmap.sizeY : ℚ) then
      some (mx, my)
    else none

/-- `MultiGoalPlanner::mapToWorld` (multigoal_planner.cpp:362-368). -/
def mapToWorld (env : PlannerEnv) (mx my : ℚ) : ℚ × ℚ :=
  (env.costmap.originX + (mx + env.convert_offset) * env.costmap.resolution,
   env.costmap.originY + (my + env.convert_offset) * env.costmap.resolution)

/-- `MultiGoalPlanner::outlineMap` (multigoal_planner.cpp:303-321): writes
`value` into the first and last rows and columns of the row-major array. -/
def outlineMap (nx ny : Nat) (value : Nat) (c : Nat → Nat) : Nat → Nat :=
  fun i =>
    let row := i / nx
    let col := i % nx
    if i < nx * ny ∧ (row = 0 ∨ row = ny - 1 ∨ col = 0 ∨ col = nx - 1) then
      value
    else c i

/-- A pose produced for a path point by `getPlanFromPotential`
(multigoal_planner.cpp:342-357): planner frame, fresh stamp, converted
world position, identity orientation. -/
def mkPlanPose (env : PlannerEnv) (pt : ℚ × ℚ) : PoseMG :=
  let w := mapToWorld env pt.1 pt.2
  { frame := env.planner_frame, stamp := env.now,
    x := w.1, y := w.2, z := 0, qx := 0, qy := 0, qz := 0, qw := 1 }

/-- `MultiGoalPlanner::getPlanFromPotential` (multigoal_planner.cpp:323-360):
try the gradient extractor, on failure fall back to the grid extractor;
convert the reversed point list to poses; succeed iff the plan is
non-empty. -/
def getPlanFromPotential (env : PlannerEnv) (pot : PotArr)
    (sx sy gx gy : ℚ) : Option (List PoseMG) :=
  let path :=
    match env.gradientPath pot sx sy gx gy with
    | some p => some p
    | none => env.gridPath pot sx sy gx gy
  match path with
  | none => none
  | some p =>
      let plan := p.reverse.map (mkPlanPose env)
      if plan.isEmpty then none else some plan

/-- The per-segment loop of `makePlans` (multigoal_planner.cpp:217-240):
for each consecutive pair of waypoints run the solver and then the
extractor; a failure of either clears the whole accumulated path and
breaks (modelled by `none`). -/
def planSegments (env : PlannerEnv) (cm : Nat → Nat) (cycles : Nat) :
    List (ℚ × ℚ) → Option (List PoseMG)
  | [] => some []
  | [_] => some []
  | p1 :: p2 :: rest =>
      match env.calculatePotentials cm p1.1 p1.2 p2.1 p2.2 cycles with
      | none => none
      | some pot =>
          match getPlanFromPotential env pot p1.1 p1.2 p2.1 p2.2 with
          | none => none
          | some seg =>
              match planSegments env cm cycles (p2 :: rest) with
              | none => none
              | some tail => some (seg ++ tail)

/-- Index-passing map used to model the in-place orientation rewrite. -/
def mapWithIdx {α β : Type} (f : Nat → α → β) : Nat → List α → List β
  | _, [] => []
  | i, a :: t => f i a :: mapWithIdx f (i + 1) t

/-- The external orientation filter applied to the concatenated path
(multigoal_planner.cpp:242): per-pose orientation assignment, length and
positions preserved. -/
def processPath (env : PlannerEnv) (start : PoseMG) (path : List PoseMG) :
    List PoseMG :=
  mapWithIdx (fun i p =>
    let q := env.orientOf start path i
    { p with qx := q.1, qy := q.2.1, qz := q.2.2.1, qw := q.2.2.2 }) 0 path

/-- Waypoint collection of `makePlans` (multigoal_planner.cpp:178-210):
convert start, every sub-goal, and goal to cell coordinates.  A start or
goal conversion failure aborts the agent (`none`); a sub-goal conversion
failure only skips that sub-goal (the `continue` at line 197 continues
the inner sub-goal loop). -/
def collectPoints (env : PlannerEnv) (start goal : PoseMG)
    (sub_goal_vector : List PoseMG) : Option (List (ℚ × ℚ)) :=
  match worldToMap env start.x start.y with
  | none => none
  | some s =>
      match worldToMap env goal.x goal.y with
      | none => none
      | some g =>
          some (s :: sub_goal_vector.filterMap
                  (fun p => worldToMap env p.x p.y) ++ [g])

/-- Frame check of one pose against the planner frame
(multigoal_planner.cpp:145-176): compare tf-resolved frame names. -/
def frameOk (env : PlannerEnv) (p : PoseMG) : Bool :=
  env.resolve env.tf_prefix p.frame = env.resolve env.tf_prefix env.planner_frame

/-- The per-agent body of the `makePlans` loop
(multigoal_planner.cpp:136-250): frame checks, waypoint conversion,
segment planning, orientation filtering and goal appending.  `none`
means the agent receives no entry in the output map. -/
def planAgent (env : PlannerEnv) (cm : Nat → Nat) (nx ny : Nat)
    (start goal : PoseMG) (sub_goal_vector : List PoseMG) :
    Option (List PoseMG) :=
  if ¬ frameOk env start then none
  else if ¬ frameOk env goal then none
  else if ¬ sub_goal_vector.all (frameOk env) then none
  else
    match collectPoints env start goal sub_goal_vector with
    | none => none
    | some pts =>
        if pts.length < 2 then none
        else
          match planSegments env cm (nx * ny * 2) pts with
          | none => none
            -- the cleared combined path stays empty through the
            -- orientation filter, so no entry is added (lines 242-249)
          | some combined =>
              if (processPath env start combined).isEmpty then none
              else some (processPath env start combined ++
                [{ goal with stamp := env.now }])

/-- An association map with `std::map` update semantics: unique keys,
`insert` overwrites the entry of an existing key. -/
abbrev PoseMap := List (HumanId × PoseMG)

/-- Sub-goal map of the planner: agent id to ordered waypoint list. -/
abbrev PoseVecMap := List (HumanId × List PoseMG)

/-- Output plan map of the planner: agent id to plan. -/
abbrev PlanMap := List (HumanId × List PoseMG)

/-- The outlined cost array handed to the solver during one pass
(multigoal_planner.cpp:134, with `costmap_2d::LETHAL_OBSTACLE` = 254). -/
def passCharMap (env : PlannerEnv) : Nat → Nat :=
  outlineMap env.costmap.sizeX env.costmap.sizeY 254 env.costmap.charMap

/-- The entry produced for one agent by the `makePlans` loop: the goal is
looked up (its presence was checked before the loop, line 111-116), the
agent's sub-goal list defaults to empty (line 141-143), and `planAgent`
runs. -/
def agentEntry (env : PlannerEnv) (sub_goals : PoseVecMap)
    (goals : PoseMap) (k : HumanId) (start : PoseMG) :
    Option (List PoseMG) :=
  match goals.lookup k with
  | none => none
  | some goal =>
      planAgent env (passCharMap env) env.costmap.sizeX env.costmap.sizeY
        start goal ((sub_goals.lookup k).getD [])

/-- The per-agent loop of `makePlans` (multigoal_planner.cpp:136-250):
one `planAgent` invocation per start entry, each successful one adding
the entry `plans[human_id] = combined_plan`. -/
def makePlansLoop (env : PlannerEnv) (starts : PoseMap)
    (sub_goals : PoseVecMap) (goals : PoseMap) : PlanMap :=
  starts.filterMap (fun kv =>
    (agentEntry env sub_goals goals kv.1 kv.2).map (fun pl => (kv.1, pl)))

/-- `MultiGoalPlanner::makePlans` (multigoal_planner.cpp:94-256).
`plans₀` is the caller-supplied output map (left untouched by the early
error returns, cleared at line 125 otherwise).  Returns the `bool`
result and the final contents of the output map.  The potential array is
allocated per pass and consumed inside `planSegments`; the costmap is
outlined with the lethal cost once per pass (line 134). -/
def makePlans (env : PlannerEnv) (starts : PoseMap)
    (sub_goals : PoseVecMap) (goals : PoseMap) (plans₀ : PlanMap) :
    Bool × PlanMap :=
  if ¬ env.init_flag then (false, plans₀)
  else if starts.length ≠ goals.length then (false, plans₀)
  else if ¬ starts.all (fun kv => (goals.lookup kv.1).isSome) then
    (false, plans₀)
  else
    let plans := makePlansLoop env starts sub_goals goals
    (!plans.isEmpty, plans)

/-! ## C10: worldToMap bounds -/

/-- C10: `worldToMap` succeeds iff `wx ≥ origin_x`, `wy ≥ origin_y` and
both converted coordinates are below the grid sizes; there is no lower
bound on the converted coordinates, so any world point with both
coordinates in `[origin, origin + convert_offset·resolution)` yields
success with both cell coordinates in `[-convert_offset, 0)`. -/
theorem worldToMap_no_lower_bound (env : PlannerEnv) (wx wy : ℚ)
    (hres : 0 < env.costmap.resolution) :
    ((worldToMap env wx wy).isSome ↔
      (env.costmap.originX ≤ wx ∧ env.costmap.originY ≤ wy ∧
       (wx - env.costmap.originX) / env.costmap.resolution - env.convert_offset
         < (env.costmap.sizeX : ℚ) ∧
       (wy - env.costmap.originY) / env.costmap.resolution - env.convert_offset
         < (env.costmap.sizeY : ℚ))) ∧
    ((env.costmap.originX ≤ wx ∧
      wx < env.costmap.originX + env.convert_offset * env.costmap.resolution ∧
      env.costmap.originY ≤ wy ∧
      wy < env.costmap.originY + env.convert_offset * env.costmap.resolution) →
      ∃ mx my, worldToMap env wx wy = some (mx, my) ∧
        -env.convert_offset ≤ mx ∧ mx < 0 ∧
        -env.convert_offset ≤ my ∧ my < 0) := by
  constructor
  · simp only [worldToMap]
    by_cases h : wx < env.costmap.originX ∨ wy < env.costmap.originY
    · rw [if_pos h]
      simp only [Option.isSome_none, Bool.false_eq_true, false_iff]
      rintro ⟨hx, hy, -, -⟩
      rcases h with h | h
      · exact absurd hx (not_le.mpr h)
      · exact absurd hy (not_le.mpr h)
    · rw [if_neg h]
      push_neg at h
      by_cases hb :
          (wx - env.costmap.originX) / env.costmap.resolution - env.convert_offset
            < (env.costmap.sizeX : ℚ) ∧
          (wy - env.costmap.originY) / env.costmap.resolution - env.convert_offset
            < (env.costmap.sizeY : ℚ)
      · rw [if_pos hb]
        simp only [Option.isSome_some, true_iff]
        exact ⟨h.1, h.2, hb.1, hb.2⟩
      · rw [if_neg hb]
        simp only [Option.isSome_none, Bool.false_eq_true, false_iff]
        rintro ⟨-, -, h1, h2⟩
        exact absurd ⟨h1, h2⟩ hb
  · rintro ⟨hx1, hx2, hy1, hy2⟩
    have hnl : ¬ (wx < env.costmap.originX ∨ wy < env.costmap.originY) := by
      push_neg; exact ⟨hx1, hy1⟩
    set mx := (wx - env.costmap.originX) / env.costmap.resolution -
      env.convert_offset with hmx
    set my := (wy - env.costmap.originY) / env.costmap.resolution -
      env.convert_offset with hmy
    have hmx0 : mx < 0 := by
      rw [hmx, sub_neg, div_lt_iff₀ hres]
      have := sub_lt_sub_right hx2 env.costmap.originX
      linarith [this]
    have hmxl : -env.convert_offset ≤ mx := by
      rw [hmx, neg_le_sub_iff_le_add, le_add_iff_nonneg_left]
      exact div_nonneg (by linarith) (le_of_lt hres)
    have hmy0 : my < 0 := by
      rw [hmy, sub_neg, div_lt_iff₀ hres]
      have := sub_lt_sub_right hy2 env.costmap.originY
      linarith [this]
    have hmyl : -env.convert_offset ≤ my := by
      rw [hmy, neg_le_sub_iff_le_add, le_add_iff_nonneg_left]
      exact div_nonneg (by linarith) (le_of_lt hres)
    refine ⟨mx, my, ?_, hmxl, hmx0, hmyl, hmy0⟩
    simp only [worldToMap]
    rw [if_neg hnl]
    have hbnd : mx < (env.costmap.sizeX : ℚ) ∧ my < (env.costmap.sizeY : ℚ) := by
      constructor
      · exact lt_of_lt_of_le hmx0 (by positivity)
      · exact lt_of_lt_of_le hmy0 (by positivity)
    rw [← hmx, ← hmy, if_pos hbnd]

/-! ## Association-map lemmas for the makePlans loop -/

theorem lookup_keyed_filterMap_of_not_mem {α β : Type} (g : HumanId → α → Option β) :
    ∀ (l : List (HumanId × α)) (k : HumanId), k ∉ l.map Prod.fst →
      (l.filterMap (fun kv => (g kv.1 kv.2).map (fun b => (kv.1, b)))).lookup k
        = none := by
  intro l
  induction l with
  | nil => intro k _; rfl
  | cons hd t ih =>
      obtain ⟨k', a'⟩ := hd
      intro k hk
      simp only [List.map_cons, List.mem_cons, not_or] at hk
      have hbeq : (k == k') = false := beq_eq_false_iff_ne.mpr hk.1
      cases hg : g k' a' with
      | none =>
          rw [List.filterMap_cons]
          simp only [hg]
          exact ih k hk.2
      | some b =>
          rw [List.filterMap_cons]
          simp only [hg]
          show List.lookup k ((k', b) :: _) = none
          simp only [List.lookup, hbeq]
          exact ih k hk.2

theorem lookup_keyed_filterMap {α β : Type} (g : HumanId → α → Option β) :
    ∀ (l : List (HumanId × α)), (l.map Prod.fst).Nodup →
      ∀ (k : HumanId) (a : α), (k, a) ∈ l →
      (l.filterMap (fun kv => (g kv.1 kv.2).map (fun b => (kv.1, b)))).lookup k
        = g k a := by
  intro l
  induction l with
  | nil => intro _ k a hmem; cases hmem
  | cons hd t ih =>
      obtain ⟨k', a'⟩ := hd
      intro hnd k a hmem
      rw [List.map_cons, List.nodup_cons] at hnd
      rcases List.mem_cons.mp hmem with heq | htail
      · have hk : k' = k := (congrArg Prod.fst heq).symm
        have ha : a' = a := (congrArg Prod.snd heq).symm
        subst hk; subst ha
        cases hg : g k' a' with
        | none =>
            rw [List.filterMap_cons]
            simp only [hg]
            exact lookup_keyed_filterMap_of_not_mem g t k' hnd.1
        | some b =>
            rw [List.filterMap_cons]
            simp only [hg]
            show List.lookup k' ((k', b) :: _) = some b
            simp [List.lookup]
      · have hne : (k == k') = false := by
          have hkmem : k ∈ t.map Prod.fst :=
            List.mem_map.mpr ⟨(k, a), htail, rfl⟩
          refine beq_eq_false_iff_ne.mpr ?_
          intro h; rw [← h] at hnd; exact hnd.1 hkmem
        cases hg : g k' a' with
        | none =>
            rw [List.filterMap_cons]
            simp only [hg]
            exact ih hnd.2 k a htail
        | some b =>
            rw [List.filterMap_cons]
            simp only [hg]
            show List.lookup k ((k', b) :: _) = g k a
            simp only [List.lookup, hne]
            exact ih hnd.2 k a htail

theorem mem_of_lookup_eq_some {β : Type} :
    ∀ {l : List (HumanId × β)} {k : HumanId} {b : β},
      l.lookup k = some b → (k, b) ∈ l := by
  intro l
  induction l with
  | nil => intro k b h; cases h
  | cons hd t ih =>
      obtain ⟨k', b'⟩ := hd
      intro k b h
      by_cases he : k = k'
      · subst he
        simp only [List.lookup, beq_self_eq_true] at h
        cases h
        exact List.mem_cons_self _ _
      · have hbeq : (k == k') = false := beq_eq_false_iff_ne.mpr he
        simp only [List.lookup, hbeq] at h
        exact List.mem_cons.mpr (Or.inr (ih h))

theorem filterMap_filter_isSome {α β : Type} (g : α → Option β) :
    ∀ (l : List α), (l.filter (fun a => (g a).isSome)).filterMap g
      = l.filterMap g := by
  intro l
  induction l with
  | nil => rfl
  | cons a t ih =>
      cases hg : g a with
      | none =>
          rw [List.filter_cons_of_neg (by simp [hg])]
          rw [List.filterMap_cons, hg, ih]
      | some b =>
          rw [List.filter_cons_of_pos (by simp [hg])]
          rw [List.filterMap_cons, hg, List.filterMap_cons, hg, ih]

/-! ## Structure of per-agent planning results -/

/-- `makePlans` after the whole-batch checks pass: the bool result is
exactly the non-emptiness of the loop output. -/
theorem makePlans_checks (env : PlannerEnv) (starts : PoseMap)
    (sub_goals : PoseVecMap) (goals : PoseMap) (plans₀ : PlanMap)
    (hinit : env.init_flag = true)
    (hlen : starts.length = goals.length)
    (hids : starts.all (fun kv => (goals.lookup kv.1).isSome) = true) :
    makePlans env starts sub_goals goals plans₀ =
      (!(makePlansLoop env starts sub_goals goals).isEmpty,
        makePlansLoop env starts sub_goals goals) := by
  unfold makePlans
  rw [if_neg (by simp [hinit]), if_neg (by simp [hlen]),
    if_neg (by simp [hids])]

/-- A produced agent entry is the orientation-filtered concatenation plus
the goal pose with refreshed timestamp: non-empty, and its last pose is
the goal with the fresh stamp. -/
theorem planAgent_eq_some {env : PlannerEnv} {cm : Nat → Nat} {nx ny : Nat}
    {start goal : PoseMG} {subs : List PoseMG} {pl : List PoseMG}
    (h : planAgent env cm nx ny start goal subs = some pl) :
    pl ≠ [] ∧ pl.getLast? = some { goal with stamp := env.now } := by
  unfold planAgent at h
  split at h
  · exact absurd h (by simp)
  split at h
  · exact absurd h (by simp)
  split at h
  · exact absurd h (by simp)
  split at h
  · exact absurd h (by simp)
  split at h
  · exact absurd h (by simp)
  split at h
  · exact absurd h (by simp)
  split at h
  · exact absurd h (by simp)
  rw [Option.some_inj] at h
  subst h
  refine ⟨by simp, ?_⟩
  rw [List.getLast?_concat]

/-- A solver or extractor failure on any segment clears the whole
combined path, so the agent receives no entry. -/
theorem planAgent_segment_failure (env : PlannerEnv) (cm : Nat → Nat)
    (nx ny : Nat) (start goal : PoseMG) (subs : List PoseMG)
    (pts : List (ℚ × ℚ))
    (hpts : collectPoints env start goal subs = some pts)
    (hseg : planSegments env cm (nx * ny * 2) pts = none) :
    planAgent env cm nx ny start goal subs = none := by
  unfold planAgent
  split
  · rfl
  split
  · rfl
  split
  · rfl
  simp only [hpts, hseg, ite_self]

/-! ## C4: per-segment failure semantics of makePlans -/

/-- C4: with the whole-batch checks passing, (i) `makePlans` returns true
iff at least one agent received a plan; (ii) every produced entry is a
non-empty plan ending in the agent's goal pose with refreshed timestamp;
(iii) a solver/extractor failure on any consecutive-waypoint segment of
an agent leaves that agent without an entry, while every agent's entry
is determined by its own data alone. -/
theorem makePlans_segment_failure_semantics (env : PlannerEnv)
    (starts : PoseMap) (sub_goals : PoseVecMap) (goals : PoseMap)
    (plans₀ : PlanMap)
    (hinit : env.init_flag = true)
    (hlen : starts.length = goals.length)
    (hids : starts.all (fun kv => (goals.lookup kv.1).isSome) = true)
    (hnd : (starts.map Prod.fst).Nodup) :
    ((makePlans env starts sub_goals goals plans₀).1 = true ↔
      (makePlans env starts sub_goals goals plans₀).2 ≠ []) ∧
    (∀ k pl, (makePlans env starts sub_goals goals plans₀).2.lookup k
        = some pl →
      pl ≠ [] ∧ ∃ goal, goals.lookup k = some goal ∧
        pl.getLast? = some { goal with stamp := env.now }) ∧
    (∀ k start goal pts, (k, start) ∈ starts →
      goals.lookup k = some goal →
      collectPoints env start goal ((sub_goals.lookup k).getD []) = some pts →
      planSegments env (passCharMap env)
        (env.costmap.sizeX * env.costmap.sizeY * 2) pts = none →
      (makePlans env starts sub_goals goals plans₀).2.lookup k = none) := by
  rw [makePlans_checks env starts sub_goals goals plans₀ hinit hlen hids]
  refine ⟨by simp [List.isEmpty_iff], ?_, ?_⟩
  · intro k pl hl
    have hmem := mem_of_lookup_eq_some hl
    unfold makePlansLoop at hmem
    rcases List.mem_filterMap.mp hmem with ⟨kv, hkv, hmap⟩
    rcases Option.map_eq_some'.mp hmap with ⟨pl', hpl', heq⟩
    have hk : kv.1 = k := congrArg Prod.fst heq
    have hplpl : pl' = pl := congrArg Prod.snd heq
    subst hk; subst hplpl
    unfold agentEntry at hpl'
    cases hg : goals.lookup kv.1 with
    | none => rw [hg] at hpl'; cases hpl'
    | some goal =>
        rw [hg] at hpl'
        have := planAgent_eq_some hpl'
        exact ⟨this.1, goal, rfl, this.2⟩
  · intro k start goal pts hmem hg hcp hseg
    unfold makePlansLoop
    rw [lookup_keyed_filterMap (agentEntry env sub_goals goals) starts hnd
      k start hmem]
    unfold agentEntry
    rw [hg]
    exact planAgent_segment_failure env (passCharMap env)
      env.costmap.sizeX env.costmap.sizeY start goal _ pts hcp hseg

/-! ## Concrete instances used by witnesses and counterexamples -/

/-- A 10×10 costmap with origin 0, resolution 1, free cells. -/
def exCostmap : Costmap :=
  { sizeX := 10, sizeY := 10, originX := 0, originY := 0,
    resolution := 1, charMap := fun _ => 0 }

/-- An environment whose external solver and gradient extractor always
succeed (the extractor returns the two endpoint cells). -/
def exEnv : PlannerEnv :=
  { costmap := exCostmap, convert_offset := 1/2, tf_prefix := "",
    planner_frame := "map", resolve := fun _ f => f, now := 7,
    calculatePotentials := fun _ _ _ _ _ _ => some (fun _ => 0),
    gradientPath := fun _ sx sy gx gy => some [(gx, gy), (sx, sy)],
    gridPath := fun _ _ _ _ _ => none,
    orientOf := fun _ _ _ => (0, 0, 0, 1), init_flag := true }

/-- An environment whose external solver always fails. -/
def exEnvFail : PlannerEnv :=
  { exEnv with calculatePotentials := fun _ _ _ _ _ _ => none }

def exStart : PoseMG :=
  { frame := "map", stamp := 0, x := 1, y := 1, z := 0,
    qx := 0, qy := 0, qz := 0, qw := 1 }

def exGoal : PoseMG :=
  { frame := "map", stamp := 0, x := 8, y := 8, z := 0,
    qx := 0, qy := 0, qz := 0, qw := 1 }

/-- A sub-goal whose position is far outside the 10×10 costmap. -/
def exSubGoalOff : PoseMG :=
  { frame := "map", stamp := 0, x := 100, y := 100, z := 0,
    qx := 0, qy := 0, qz := 0, qw := 1 }

/-- Witness for C4 at a one-agent instance. -/
theorem makePlans_segment_failure_semantics_witness :
    ((makePlans exEnv [(1, exStart)] [] [(1, exGoal)] []).1 = true ↔
      (makePlans exEnv [(1, exStart)] [] [(1, exGoal)] []).2 ≠ []) := by
  exact (makePlans_segment_failure_semantics exEnv [(1, exStart)] []
    [(1, exGoal)] [] rfl rfl (by decide) (by simp)).1

/-! ## C1: off-grid waypoints -/

/-- C1 counterexample: an agent whose sub-goal lies outside the costmap
is not skipped — it still receives a plan (built from the remaining
waypoints), refuting the claim that any off-grid waypoint causes the
agent to receive no plan at all. -/
theorem offgrid_subgoal_not_skipped_cex :
    worldToMap exEnv exSubGoalOff.x exSubGoalOff.y = none ∧
    ((makePlans exEnv [(1, exStart)] [(1, [exSubGoalOff])] [(1, exGoal)]
        []).2.lookup 1).isSome = true := by
  constructor
  · norm_num [worldToMap, exEnv, exCostmap, exSubGoalOff]
  · norm_num [makePlans, makePlansLoop, agentEntry, planAgent, collectPoints,
      worldToMap, planSegments, getPlanFromPotential, processPath, mapWithIdx,
      mkPlanPose, mapToWorld, frameOk, passCharMap, exEnv, exCostmap, exStart,
      exGoal, exSubGoalOff, List.lookup, List.filterMap]

/-- C1 amended: an off-grid start or goal skips the agent entirely (no
partial plan) while each agent's entry is still computed from its own
data alone (other agents proceed); an off-grid sub-goal is merely
dropped from that agent's waypoint list, planning proceeding over the
remaining waypoints. -/
theorem makePlans_offgrid_waypoints (env : PlannerEnv) (starts : PoseMap)
    (sub_goals : PoseVecMap) (goals : PoseMap) (plans₀ : PlanMap)
    (k : HumanId) (start : PoseMG)
    (hinit : env.init_flag = true)
    (hlen : starts.length = goals.length)
    (hids : starts.all (fun kv => (goals.lookup kv.1).isSome) = true)
    (hnd : (starts.map Prod.fst).Nodup)
    (hmem : (k, start) ∈ starts) :
    ((makePlans env starts sub_goals goals plans₀).2.lookup k =
      agentEntry env sub_goals goals k start) ∧
    (∀ goal sgv,
      worldToMap env start.x start.y = none ∨
        worldToMap env goal.x goal.y = none →
      planAgent env (passCharMap env) env.costmap.sizeX env.costmap.sizeY
        start goal sgv = none) ∧
    (∀ goal sgv, sgv.all (frameOk env) = true →
      planAgent env (passCharMap env) env.costmap.sizeX env.costmap.sizeY
        start goal sgv =
      planAgent env (passCharMap env) env.costmap.sizeX env.costmap.sizeY
        start goal
        (sgv.filter (fun p => (worldToMap env p.x p.y).isSome))) := by
  refine ⟨?_, ?_, ?_⟩
  · rw [makePlans_checks env starts sub_goals goals plans₀ hinit hlen hids]
    unfold makePlansLoop
    exact lookup_keyed_filterMap (agentEntry env sub_goals goals) starts hnd
      k start hmem
  · intro goal sgv h
    have hc : collectPoints env start goal sgv = none := by
      unfold collectPoints
      rcases h with h | h
      · rw [h]
      · cases hw : worldToMap env start.x start.y with
        | none => rfl
        | some s => rw [h]
    unfold planAgent
    split
    · rfl
    split
    · rfl
    split
    · rfl
    rw [hc]
  · intro goal sgv hall
    have hall2 : (sgv.filter
        (fun p => (worldToMap env p.x p.y).isSome)).all (frameOk env)
          = true := by
      rw [List.all_eq_true] at hall ⊢
      intro p hp
      exact hall p (List.mem_of_mem_filter hp)
    have hcp : collectPoints env start goal sgv =
        collectPoints env start goal
          (sgv.filter (fun p => (worldToMap env p.x p.y).isSome)) := by
      unfold collectPoints
      rw [filterMap_filter_isSome (fun p => worldToMap env p.x p.y) sgv]
    unfold planAgent
    rw [hcp, hall, hall2]

/-- Witness for C1 amended: a two-agent instance where agent 2's start is
off-grid: agent 2 is skipped while agent 1 still receives its entry. -/
theorem makePlans_offgrid_waypoints_witness :
    ((makePlans exEnv [(1, exStart), (2, exSubGoalOff)] []
        [(1, exGoal), (2, exGoal)] []).2.lookup 2 =
      agentEntry exEnv [] [(1, exGoal), (2, exGoal)] 2 exSubGoalOff) := by
  exact (makePlans_offgrid_waypoints exEnv [(1, exStart), (2, exSubGoalOff)]
    [] [(1, exGoal), (2, exGoal)] [] 2 exSubGoalOff rfl rfl (by decide)
    (by simp) (by simp)).1

/-- Witness for C10 at a concrete grid (10×10, origin 0, resolution 1,
offset 1/2) and the world point (1/4, 1/4). -/
theorem worldToMap_no_lower_bound_witness :
    (0 : ℚ) < 1 ∧
    ((worldToMap
        { costmap := { sizeX := 10, sizeY := 10, originX := 0, originY := 0,
                       resolution := 1, charMap := fun _ => 0 },
          convert_offset := 1/2, tf_prefix := "", planner_frame := "map",
          resolve := fun _ f => f, now := 0,
          calculatePotentials := fun _ _ _ _ _ _ => none,
          gradientPath := fun _ _ _ _ _ => none,
          gridPath := fun _ _ _ _ _ => none,
          orientOf := fun _ _ _ => (0, 0, 0, 1), init_flag := true }
        (1/4) (1/4)).isSome ↔
      ((0 : ℚ) ≤ 1/4 ∧ (0 : ℚ) ≤ 1/4 ∧
       ((1/4 : ℚ) - 0) / 1 - 1/2 < (10 : ℚ) ∧
       ((1/4 : ℚ) - 0) / 1 - 1/2 < (10 : ℚ))) := by
  refine ⟨by norm_num, ?_⟩
  have h := worldToMap_no_lower_bound
    { costmap := { sizeX := 10, sizeY := 10, originX := 0, originY := 0,
                   resolution := 1, charMap := fun _ => 0 },
      convert_offset := 1/2, tf_prefix := "", planner_frame := "map",
      resolve := fun _ f => f, now := 0,
      calculatePotentials := fun _ _ _ _ _ _ => none,
      gradientPath := fun _ _ _ _ _ => none,
      gridPath := fun _ _ _ _ _ => none,
      orientOf := fun _ _ _ => (0, 0, 0, 1), init_flag := true }
    (1/4) (1/4) (by norm_num)
  exact h.1

/-! ## Coordinator state machine (move_humans.cpp) -/

/-- `move_humans::MoveHumansState` (IDLE / PLANNING / CONTROLLING). -/
inductive MHState where
  | IDLE
  | PLANNING
  | CONTROLLING
deriving DecidableEq, Repr

/-- One agent plan held by the coordinator (a pose sequence). -/
abbrev PlanC := List PoseMG

/-- A plan batch: agent id to queue of plans (`map_pose_vectors`). -/
abbrev PlanBatch := List (HumanId × List PlanC)

/-- The configuration options read by `MoveHumans` (move_humans.cpp:29-32). -/
structure MHConfig where
  planner_frequency : ℚ
  controller_frequency : ℚ
  shutdown_costmaps : Bool
  publish_feedback : Bool

/-- The lock-guarded coordinator fields of `MoveHumans`: the state enum,
the run-planner and new-plans flags, the worker's `wait_for_wake` local,
the three plan slots (pointer-swapped buffers modelled as owned values),
the controller's current-target map, and whether the two costmaps are
started (for the `shutdown_costmaps` behaviour). -/
structure CoordSt where
  state : MHState
  run_planner : Bool
  new_global_plans : Bool
  wait_for_wake : Bool
  planner_plans : PlanBatch
  latest_plans : PlanBatch
  controller_plans : PlanBatch
  current_controller_plans : List (HumanId × PlanC)
  costmaps_on : Bool
deriving Repr

/-- `MoveHumans::resetState` (move_humans.cpp:501-512): clear the
run-planner flag, go to IDLE, and stop both costmaps when
`shutdown_costmaps_` is configured. -/
def resetState (cfg : MHConfig) (s : CoordSt) : CoordSt :=
  { s with
    run_planner := false, state := MHState.IDLE,
    costmaps_on := if cfg.shutdown_costmaps then false else s.costmaps_on }

/-- The post-pass critical section of `MoveHumans::planThread`
(move_humans.cpp:195-219), entered with the freshly produced batch in
`planner_plans_`: a non-empty batch is pointer-swapped into the latest
slot and flagged; an empty batch in PLANNING clears the flag and fails
to IDLE. -/
def planThreadUpdate (cfg : MHConfig) (newPlans : PlanBatch)
    (s : CoordSt) : CoordSt :=
  let s := { s with planner_plans := newPlans }
  if 0 < newPlans.length then
    let sw := { s with
                planner_plans := s.latest_plans,
                latest_plans := s.planner_plans, new_global_plans := true }
    let sw := if sw.run_planner then { sw with state := MHState.CONTROLLING }
      else sw
    if cfg.planner_frequency ≤ 0 then { sw with run_planner := false } else sw
  else
    if s.state = MHState.PLANNING then
      { s with run_planner := false, state := MHState.IDLE }
    else s

/-- The self-throttling tail of the worker iteration
(move_humans.cpp:221-229): with a positive planning frequency and
remaining budget, arm `wait_for_wake` and start a timer for the
remainder; the returned option is the timer delay. -/
def planThreadThrottle (cfg : MHConfig) (elapsed : ℚ) (s : CoordSt) :
    CoordSt × Option ℚ :=
  if 0 < cfg.planner_frequency then
    if 0 < 1 / cfg.planner_frequency - elapsed then
      ({ s with wait_for_wake := true },
        some (1 / cfg.planner_frequency - elapsed))
    else (s, none)
  else (s, none)

/-- One whole post-pass step of the worker loop. -/
def planThreadIter (cfg : MHConfig) (elapsed : ℚ) (newPlans : PlanBatch)
    (s : CoordSt) : CoordSt × Option ℚ :=
  planThreadThrottle cfg elapsed (planThreadUpdate cfg newPlans s)

/-- Time until the worker runs its next pass after an iteration: the
timer delay when one was started, otherwise zero (the loop re-enters at
once since `wait_for_wake` stays false). -/
def nextWakeDelay (r : CoordSt × Option ℚ) : ℚ :=
  (r.2).getD 0

/-- The worker's suspension guard (move_humans.cpp:158): a planning pass
runs only when `wait_for_wake` is clear and `run_planner_` is set. -/
def workerRunsPass (s : CoordSt) : Prop :=
  s.wait_for_wake = false ∧ s.run_planner = true

/-- `std::map` assignment `m[k] = v`: replace or append. -/
def insertA {β : Type} : List (HumanId × β) → HumanId → β →
    List (HumanId × β)
  | [], k, v => [(k, v)]
  | (k', v') :: t, k, v =>
      if k' = k then (k, v) :: t else (k', v') :: insertA t k v

/-- `plan_vector.erase(plan_vector.begin())` applied to agent `id` inside
`controller_plans_` (move_humans.cpp:420-424): drop the front plan of an
existing non-empty queue, leave everything else unchanged. -/
def dropFrontAt : PlanBatch → HumanId → PlanBatch
  | [], _ => []
  | (k, pv) :: t, id =>
      if k = id then (k, pv.tail) :: t else (k, pv) :: dropFrontAt t id

/-- The reached-agents advancement loop (move_humans.cpp:418-430): for
each reached agent pop its current plan; if another plan is queued it
becomes the new current target. -/
def popReached (reached : List HumanId) (cp : PlanBatch)
    (cur : List (HumanId × PlanC)) : PlanBatch × List (HumanId × PlanC) :=
  reached.foldl (fun acc id =>
    let batch := dropFrontAt acc.1 id
    match batch.lookup id with
    | some (p :: _) => (batch, insertA acc.2 id p)
    | _ => (batch, acc.2)) (cp, cur)

/-- The guarded pop block (move_humans.cpp:417-438): runs only when some
agent was reached, and starts from a cleared current-target map. -/
def controllingPop (reached : List HumanId) (s : CoordSt) : CoordSt :=
  if 0 < reached.length then
    { s with
      controller_plans := (popReached reached s.controller_plans []).1,
      current_controller_plans := (popReached reached s.controller_plans []).2 }
  else s

/-- The controller responses consumed by one execution tick:
`areGoalsReached` (`none` = query failure), the `setPlans` result, and
`computeHumansStates` (`none` = positions unavailable). -/
structure CtrlResp where
  reached : Option (List HumanId)
  setPlansOk : Bool
  humans : Option (List (HumanId × PoseMG))

/-- Externally visible outcomes of one tick: terminal results sent to the
action server and feedback publications. -/
inductive MHEvent where
  | aborted (reason : String)
  | succeeded
  | feedback (poses : List (HumanId × PoseMG))
deriving DecidableEq, Repr

/-- `MoveHumans::executeCycle` (move_humans.cpp:398-499): one execution
tick.  Returns the updated state, the `bool` return value (`true` makes
the request loop in `actionCB` return, consuming no further ticks), and
the emitted events.  Note the positions-unavailable branch
(lines 469-476) aborts and resets but falls through to `return false`
(line 498). -/
def executeCycle (cfg : MHConfig) (resp : CtrlResp) (s : CoordSt) :
    CoordSt × Bool × List MHEvent :=
  match s.state with
  | MHState.PLANNING => (s, false, [])
  | MHState.CONTROLLING =>
      match resp.reached with
      | none =>
          (resetState cfg s, true, [MHEvent.aborted "Controller failure"])
      | some reached =>
          let s := controllingPop reached s
          -- the conditional setPlans call (lines 431-437) only logs on
          -- failure and mutates no coordinator state
          if s.controller_plans.all (fun kv => kv.2.isEmpty) then
            (resetState cfg s, true, [MHEvent.succeeded])
          else
            match resp.humans with
            | some humans =>
                (s, false,
                  if cfg.publish_feedback then [MHEvent.feedback humans]
                  else [])
            | none =>
                (resetState cfg s, false,
                  [MHEvent.aborted
                    "The controller could not calculate new human positions"])
  | MHState.IDLE =>
      (resetState cfg s, true,
        [MHEvent.aborted "The planner could not calculate plans"])

/-- `MoveHumans::loadPlugin` (move_humans.cpp:514-540).  Plugins are
identified by opaque ids; `createRes` is the `createInstance` outcome
(`none` = a `PluginlibException`, the only throwing call in the body for
this repository's plugins, whose `initialize` does not throw).  On
success the three plan slots are cleared and `resetState` runs; on
failure the previous plugin is restored and nothing else is touched. -/
def loadPlugin (cfg : MHConfig) (createRes : Option Nat) (plugin : Nat)
    (s : CoordSt) : Bool × Nat × CoordSt :=
  match createRes with
  | some newPlugin =>
      (true, newPlugin,
        resetState cfg { s with
          planner_plans := [],
          controller_plans := [], latest_plans := [] })
  | none => (false, plugin, s)

/-! ## Concrete coordinator instances for witnesses and counterexamples -/

/-- Plan-once configuration (the default `planner_frequency` is 0.0,
move_humans.cpp:29). -/
def cfgOnce : MHConfig :=
  { planner_frequency := 0, controller_frequency := 20,
    shutdown_costmaps := false, publish_feedback := true }

/-- Same configuration with `shutdown_costmaps` enabled. -/
def cfgShut : MHConfig :=
  { cfgOnce with shutdown_costmaps := true }

/-- A coordinator state armed for planning. -/
def stPlanning : CoordSt :=
  { state := MHState.PLANNING, run_planner := true,
    new_global_plans := false, wait_for_wake := false,
    planner_plans := [], latest_plans := [], controller_plans := [],
    current_controller_plans := [], costmaps_on := true }

/-- A controlling-state coordinator with one agent still under way. -/
def stControlling : CoordSt :=
  { stPlanning with
    state := MHState.CONTROLLING, run_planner := false,
    controller_plans := [(1, [[exGoal]])] }

/-- A controller response whose reached-query succeeds (empty set) but
whose positions query fails. -/
def respPosFail : CtrlResp :=
  { reached := some [], setPlansOk := true, humans := none }

/-- A controller response whose reached-query fails. -/
def respReachedFail : CtrlResp :=
  { reached := none, setPlansOk := true, humans := some [] }

/-! ## C3: plan batch hand-off -/

/-- C3: after a planning pass, under the planner lock: a non-empty batch
is swapped into the latest-plans slot (the planner slot receiving the
old latest buffer), the new-plans flag is set and, when the run-planner
flag is still set, the state moves to CONTROLLING; an empty batch while
in PLANNING clears the run-planner flag and moves the state to IDLE. -/
theorem planThread_handoff (cfg : MHConfig) (newPlans : PlanBatch)
    (s : CoordSt) :
    (newPlans ≠ [] →
      (planThreadUpdate cfg newPlans s).latest_plans = newPlans ∧
      (planThreadUpdate cfg newPlans s).planner_plans = s.latest_plans ∧
      (planThreadUpdate cfg newPlans s).new_global_plans = true ∧
      (s.run_planner = true →
        (planThreadUpdate cfg newPlans s).state = MHState.CONTROLLING)) ∧
    (newPlans = [] → s.state = MHState.PLANNING →
      (planThreadUpdate cfg newPlans s).run_planner = false ∧
      (planThreadUpdate cfg newPlans s).state = MHState.IDLE) := by
  constructor
  · intro hne
    have hlen : 0 < newPlans.length := List.length_pos.mpr hne
    by_cases hrp : s.run_planner = true
    · by_cases hf : cfg.planner_frequency ≤ 0
      · simp [planThreadUpdate, hlen, hrp, hf]
      · simp [planThreadUpdate, hlen, hrp, hf]
    · by_cases hf : cfg.planner_frequency ≤ 0
      · simp [planThreadUpdate, hlen, hrp, hf]
      · simp [planThreadUpdate, hlen, hrp, hf]
  · intro he hst
    subst he
    simp [planThreadUpdate, hst]

/-- Witness for C3 at a concrete batch and armed state. -/
theorem planThread_handoff_witness :
    (planThreadUpdate cfgOnce [(1, [[exGoal]])] stPlanning).latest_plans
        = [(1, [[exGoal]])] ∧
      (planThreadUpdate cfgOnce [(1, [[exGoal]])] stPlanning).planner_plans
        = stPlanning.latest_plans ∧
      (planThreadUpdate cfgOnce [(1, [[exGoal]])] stPlanning).new_global_plans
        = true ∧
      (stPlanning.run_planner = true →
        (planThreadUpdate cfgOnce [(1, [[exGoal]])] stPlanning).state
          = MHState.CONTROLLING) := by
  exact (planThread_handoff cfgOnce [(1, [[exGoal]])] stPlanning).1 (by simp)

/-! ## C7: entering IDLE -/

/-- C7 counterexample: the worker's zero-plans failure path sets IDLE and
clears the run-planner flag but does not stop the costmaps even though
`shutdown_costmaps` is configured, refuting the claim that every
IDLE-entering path releases the costmap resources. -/
theorem worker_idle_keeps_costmaps_cex :
    cfgShut.shutdown_costmaps = true ∧
    stPlanning.costmaps_on = true ∧
    (planThreadUpdate cfgShut [] stPlanning).state = MHState.IDLE ∧
    (planThreadUpdate cfgShut [] stPlanning).run_planner = false ∧
    (planThreadUpdate cfgShut [] stPlanning).costmaps_on = true := by
  exact ⟨rfl, rfl, rfl, rfl, rfl⟩

/-- C7 amended: `resetState` (used by every abort/preempt/success path)
clears the run-planner flag, sets IDLE and stops the costmaps when
configured; the worker's zero-plans failure path also clears the flag
and sets IDLE but leaves the costmaps untouched. -/
theorem idle_entry_reset (cfg : MHConfig) (s : CoordSt) :
    ((resetState cfg s).run_planner = false ∧
      (resetState cfg s).state = MHState.IDLE ∧
      (cfg.shutdown_costmaps = true → (resetState cfg s).costmaps_on = false) ∧
      (cfg.shutdown_costmaps = false →
        (resetState cfg s).costmaps_on = s.costmaps_on)) ∧
    (s.state = MHState.PLANNING →
      (planThreadUpdate cfg [] s).run_planner = false ∧
      (planThreadUpdate cfg [] s).state = MHState.IDLE ∧
      (planThreadUpdate cfg [] s).costmaps_on = s.costmaps_on) := by
  constructor
  · refine ⟨rfl, rfl, fun h => ?_, fun h => ?_⟩
    · simp [resetState, h]
    · simp [resetState, h]
  · intro hst
    simp [planThreadUpdate, hst]

/-- Witness for C7 amended at the concrete shutdown configuration. -/
theorem idle_entry_reset_witness :
    (planThreadUpdate cfgShut [] stPlanning).run_planner = false ∧
      (planThreadUpdate cfgShut [] stPlanning).state = MHState.IDLE ∧
      (planThreadUpdate cfgShut [] stPlanning).costmaps_on
        = stPlanning.costmaps_on := by
  exact (idle_entry_reset cfgShut stPlanning).2 rfl

/-! ## C2: controller failures during a CONTROLLING tick -/

/-- C2 counterexample: with an agent still under way, a failing
positions query aborts the request and resets to IDLE, but
`executeCycle` returns `false` (move_humans.cpp:469-476 fall through to
line 498), so the request loop runs one further tick — refuting the
claim that no further execution tick is consumed. -/
theorem position_failure_returns_false_cex :
    (executeCycle cfgOnce respPosFail stControlling).2.1 = false ∧
    (executeCycle cfgOnce respPosFail stControlling).1.state
      = MHState.IDLE ∧
    (executeCycle cfgOnce respPosFail stControlling).2.2
      = [MHEvent.aborted
          "The controller could not calculate new human positions"] := by
  exact ⟨rfl, rfl, rfl⟩

/-- C2 amended: during a CONTROLLING tick a reached-query failure aborts
the request, resets to IDLE and returns `true` (the loop consumes no
further ticks); a positions-unavailable failure also aborts and resets
to IDLE but returns `false`, so the loop consumes exactly one further
tick, which runs in IDLE and returns `true`. -/
theorem executeCycle_controller_failures (cfg : MHConfig) (resp : CtrlResp)
    (s : CoordSt) (hst : s.state = MHState.CONTROLLING) :
    (resp.reached = none →
      executeCycle cfg resp s =
        (resetState cfg s, true, [MHEvent.aborted "Controller failure"])) ∧
    (∀ reached, resp.reached = some reached → resp.humans = none →
      (controllingPop reached s).controller_plans.all
          (fun kv => kv.2.isEmpty) = false →
      executeCycle cfg resp s =
        (resetState cfg (controllingPop reached s), false,
          [MHEvent.aborted
            "The controller could not calculate new human positions"])) ∧
    (∀ (s' : CoordSt) (resp' : CtrlResp), s'.state = MHState.IDLE →
      (executeCycle cfg resp' s').2.1 = true) := by
  refine ⟨fun hr => ?_, fun reached hr hh hall => ?_, fun s' resp' h => ?_⟩
  · simp [executeCycle, hst, hr]
  · simp [executeCycle, hst, hr, hh, hall]
  · simp [executeCycle, h]

/-- Witness for C2 amended at the concrete controlling state. -/
theorem executeCycle_controller_failures_witness :
    executeCycle cfgOnce respReachedFail stControlling =
      (resetState cfgOnce stControlling, true,
        [MHEvent.aborted "Controller failure"]) := by
  exact (executeCycle_controller_failures cfgOnce respReachedFail
    stControlling rfl).1 rfl

/-! ## C8: planning frequency behaviour of the worker -/

/-- C8: with `planner_frequency ≤ 0` the worker plans once per request —
after a pass that produced plans, or that ended while still in PLANNING,
the run-planner flag is cleared, the suspension guard blocks another
pass and no timer is started (the worker never sets the flag itself, so
it stays clear until a new request); with a positive frequency the next
pass is scheduled after `max 0 (period - elapsed)`. -/
theorem planThread_frequency (cfg : MHConfig) (elapsed : ℚ)
    (newPlans : PlanBatch) (s : CoordSt) :
    (cfg.planner_frequency ≤ 0 →
      (newPlans ≠ [] ∨ s.state = MHState.PLANNING) →
      (planThreadIter cfg elapsed newPlans s).1.run_planner = false ∧
      ¬ workerRunsPass (planThreadIter cfg elapsed newPlans s).1 ∧
      (planThreadIter cfg elapsed newPlans s).2 = none) ∧
    ((planThreadIter cfg elapsed newPlans s).1.run_planner = true →
      s.run_planner = true) ∧
    (0 < cfg.planner_frequency →
      nextWakeDelay (planThreadIter cfg elapsed newPlans s) =
        max 0 (1 / cfg.planner_frequency - elapsed)) := by
  have hthr_run : ∀ t : CoordSt,
      (planThreadThrottle cfg elapsed t).1.run_planner = t.run_planner := by
    intro t
    unfold planThreadThrottle
    split
    · split <;> rfl
    · rfl
  have hupd_run : ∀ t : CoordSt,
      (planThreadUpdate cfg newPlans t).run_planner = true →
      t.run_planner = true := by
    intro t h
    by_cases hrp : t.run_planner = true
    · exact hrp
    by_cases hlen : 0 < newPlans.length
    · by_cases hf2 : cfg.planner_frequency ≤ 0
      · simp [planThreadUpdate, hlen, hf2, hrp] at h
      · simp [planThreadUpdate, hlen, hf2, hrp] at h
    · by_cases hst : t.state = MHState.PLANNING
      · simp [planThreadUpdate, hlen, hst] at h
      · simp [planThreadUpdate, hlen, hst, hrp] at h
  refine ⟨fun hf harm => ?_, fun h => ?_, fun hf => ?_⟩
  · have hnotpos : ¬ 0 < cfg.planner_frequency := not_lt.mpr hf
    have hrun : (planThreadUpdate cfg newPlans s).run_planner = false := by
      unfold planThreadUpdate
      rcases harm with hne | hst
      · have hlen : 0 < newPlans.length := List.length_pos.mpr hne
        rw [if_pos hlen, if_pos hf]
      · by_cases hne : 0 < newPlans.length
        · rw [if_pos hne, if_pos hf]
        · rw [if_neg hne]
          simp [hst]
    refine ⟨?_, ?_, ?_⟩
    · unfold planThreadIter
      rw [hthr_run]
      exact hrun
    · intro hpass
      have := hpass.2
      rw [show (planThreadIter cfg elapsed newPlans s).1.run_planner = false
        from by unfold planThreadIter; rw [hthr_run]; exact hrun] at this
      cases this
    · unfold planThreadIter planThreadThrottle
      rw [if_neg hnotpos]
  · unfold planThreadIter at h
    rw [hthr_run] at h
    exact hupd_run s h
  · unfold planThreadIter planThreadThrottle nextWakeDelay
    rw [if_pos hf]
    by_cases hs : 0 < 1 / cfg.planner_frequency - elapsed
    · rw [if_pos hs]
      simp only [Option.getD_some]
      exact (max_eq_right hs.le).symm
    · rw [if_neg hs]
      simp only [Option.getD_none]
      exact (max_eq_left (not_lt.mp hs)).symm

/-- Witness for C8 at the plan-once configuration and an armed state. -/
theorem planThread_frequency_witness :
    (planThreadIter cfgOnce 1 [(1, [[exGoal]])] stPlanning).1.run_planner
        = false ∧
      ¬ workerRunsPass (planThreadIter cfgOnce 1 [(1, [[exGoal]])]
        stPlanning).1 ∧
      (planThreadIter cfgOnce 1 [(1, [[exGoal]])] stPlanning).2 = none := by
  exact (planThread_frequency cfgOnce 1 [(1, [[exGoal]])] stPlanning).1
    (by norm_num [cfgOnce]) (Or.inl (by simp))

/-! ## C9: plugin loading -/

/-- C9: a successful plugin (re)load — including one triggered through
runtime reconfiguration, which calls this same routine — clears all
three plan slots and resets the coordinator to IDLE with the run-planner
flag cleared; a load exception restores the previous plugin, returns
false and touches none of this state. -/
theorem loadPlugin_spec (cfg : MHConfig) (createRes : Option Nat)
    (plugin : Nat) (s : CoordSt) :
    (∀ p, createRes = some p →
      loadPlugin cfg createRes plugin s =
        (true, p, resetState cfg
          { s with
            planner_plans := [], controller_plans := [],
            latest_plans := [] }) ∧
      (loadPlugin cfg createRes plugin s).2.2.planner_plans = [] ∧
      (loadPlugin cfg createRes plugin s).2.2.latest_plans = [] ∧
      (loadPlugin cfg createRes plugin s).2.2.controller_plans = [] ∧
      (loadPlugin cfg createRes plugin s).2.2.state = MHState.IDLE ∧
      (loadPlugin cfg createRes plugin s).2.2.run_planner = false) ∧
    (createRes = none →
      loadPlugin cfg createRes plugin s = (false, plugin, s)) := by
  refine ⟨fun p hp => ?_, fun hn => ?_⟩
  · subst hp
    refine ⟨rfl, ?_, ?_, ?_, ?_, ?_⟩ <;> simp [loadPlugin, resetState]
  · subst hn
    rfl

/-- Witness for C9 at a concrete plugin id and state. -/
theorem loadPlugin_spec_witness :
    loadPlugin cfgShut (some 5) 3 stControlling =
      (true, 5, resetState cfgShut
        { stControlling with
          planner_plans := [], controller_plans := [],
          latest_plans := [] }) := by
  exact ((loadPlugin_spec cfgShut (some 5) 3 stControlling).1 5 rfl).1

/-! ## Request validation (move_humans.cpp:542-666) -/

/-- One IEEE-double quaternion component: a finite exact value, or a
NaN/Inf (for which `std::isfinite` is false). -/
inductive FVal where
  | fin (q : ℚ)
  | nonfinite
deriving DecidableEq, Repr

/-- `geometry_msgs::Quaternion`. -/
structure QuatC where
  x : FVal
  y : FVal
  z : FVal
  w : FVal
deriving DecidableEq, Repr

/-- A request pose: frame tag, position, orientation. -/
structure PoseQ where
  frame : String
  px : ℚ
  py : ℚ
  pz : ℚ
  orientation : QuatC
deriving DecidableEq, Repr

/-- One `start_poses` / `goal_poses` entry of a `MoveHumansGoal`. -/
structure AgentPose where
  human_id : HumanId
  pose : PoseQ
deriving DecidableEq, Repr

/-- One `sub_goal_poses` entry. -/
structure AgentPoses where
  human_id : HumanId
  poses : List PoseQ
deriving DecidableEq, Repr

/-- The `MoveHumansGoal` request message. -/
structure MHGoalMsg where
  start_poses : List AgentPose
  goal_poses : List AgentPose
  sub_goal_poses : List AgentPoses

/-- All four components pass `std::isfinite`. -/
def quatFinite (q : QuatC) : Bool :=
  match q.x, q.y, q.z, q.w with
  | FVal.fin _, FVal.fin _, FVal.fin _, FVal.fin _ => true
  | _, _, _, _ => false

/-- `MoveHumans::isQuaternionValid` (move_humans.cpp:643-666) in exact
arithmetic.  The code rejects non-finite components, then rejects
`length2 < 1e-6`, then normalizes and computes
`dot = up · rotate(up, axis, angle)`; for the normalized quaternion this
equals `1 - 2(x² + y²)/‖q‖²`, and since that never exceeds 1 the test
`fabs(dot - 1) > 1e-3` is exactly `2(x² + y²)/‖q‖² > 1e-3`. -/
def isQuaternionValid (q : QuatC) : Bool :=
  match q.x, q.y, q.z, q.w with
  | FVal.fin a, FVal.fin b, FVal.fin c, FVal.fin d =>
      if a ^ 2 + b ^ 2 + c ^ 2 + d ^ 2 < 1 / 1000000 then false
      else if 1 / 1000 <
          2 * (a ^ 2 + b ^ 2) / (a ^ 2 + b ^ 2 + c ^ 2 + d ^ 2) then false
      else true
  | _, _, _, _ => false

/-- The z-component of the rotated vertical axis for the (normalized)
quaternion with components `a b c d`: the cosine of its deviation from
vertical. -/
def zAxisDot (a b c d : ℚ) : ℚ :=
  1 - 2 * (a ^ 2 + b ^ 2) / (a ^ 2 + b ^ 2 + c ^ 2 + d ^ 2)

/-- The start/goal insertion loops (move_humans.cpp:581-598): invalid
quaternions are skipped, valid poses are assigned into the map. -/
def buildStarts (entries : List AgentPose) : List (HumanId × PoseQ) :=
  entries.foldl (fun m e =>
    if isQuaternionValid e.pose.orientation then
      insertA m e.human_id e.pose
    else m) []

/-- The sub-goal insertion loop (move_humans.cpp:599-613): per-pose
filtering, with an entry added only when some valid sub-goal remains. -/
def buildSubGoals (entries : List AgentPoses) : List (HumanId × List PoseQ) :=
  entries.foldl (fun m e =>
    if 0 < (e.poses.filter
        (fun p => isQuaternionValid p.orientation)).length then
      insertA m e.human_id
        (e.poses.filter (fun p => isQuaternionValid p.orientation))
    else m) []

/-- The single-frame requirement (move_humans.cpp:553-579). -/
def framesOk (g : MHGoalMsg) (frame : String) : Bool :=
  g.start_poses.all (fun e => e.pose.frame = frame) &&
  g.goal_poses.all (fun e => e.pose.frame = frame) &&
  g.sub_goal_poses.all (fun e => e.poses.all (fun p => p.frame = frame))

/-- The two reconciliation erase-loops (move_humans.cpp:615-632): first
remove start entries (and their sub-goal entries) whose id has no goal;
then remove goal entries (and their sub-goal entries) whose id has no
remaining start.  The `while`/`erase` iteration over the ordered map is
expressed as an order-preserving filter by the same conditions. -/
def reconcile (starts goals : List (HumanId × PoseQ))
    (subs : List (HumanId × List PoseQ)) :
    List (HumanId × PoseQ) × List (HumanId × List PoseQ) ×
      List (HumanId × PoseQ) :=
  let starts1 := starts.filter (fun kv => (goals.lookup kv.1).isSome)
  let subs1 := subs.filter (fun kv =>
    !((starts.lookup kv.1).isSome && !(goals.lookup kv.1).isSome))
  let goals1 := goals.filter (fun kv => (starts1.lookup kv.1).isSome)
  let subs2 := subs1.filter (fun kv =>
    !((goals.lookup kv.1).isSome && !(starts1.lookup kv.1).isSome))
  (starts1, subs2, goals1)

/-- `MoveHumans::validateGoals` (move_humans.cpp:542-641): count checks,
single-frame check, per-pose quaternion filtering, reconciliation, and
the final emptiness check.  `none` models a `false` return. -/
def validateGoals (g : MHGoalMsg) :
    Option (List (HumanId × PoseQ) × List (HumanId × List PoseQ) ×
      List (HumanId × PoseQ)) :=
  if g.start_poses.length = 0 ∨ g.goal_poses.length = 0 ∨
      g.start_poses.length ≠ g.goal_poses.length then none
  else
    match g.start_poses with
    | [] => none
      -- unreachable: the count check already rejected empty starts
    | e0 :: _ =>
        if ¬ framesOk g e0.pose.frame then none
        else
          if (reconcile (buildStarts g.start_poses)
                (buildStarts g.goal_poses)
                (buildSubGoals g.sub_goal_poses)).1.length = 0 ∨
              (reconcile (buildStarts g.start_poses)
                (buildStarts g.goal_poses)
                (buildSubGoals g.sub_goal_poses)).2.2.length = 0 then none
          else
            some (reconcile (buildStarts g.start_poses)
              (buildStarts g.goal_poses) (buildSubGoals g.sub_goal_poses))

/-! ## Lemmas about the validation maps -/

theorem mem_insertA {β : Type} :
    ∀ (m : List (HumanId × β)) (k : HumanId) (v : β) (kv : HumanId × β),
      kv ∈ insertA m k v → kv = (k, v) ∨ kv ∈ m := by
  intro m
  induction m with
  | nil =>
      intro k v kv h
      simp only [insertA, List.mem_singleton] at h
      exact Or.inl h
  | cons hd t ih =>
      obtain ⟨k0, v0⟩ := hd
      intro k v kv h
      unfold insertA at h
      by_cases he : k0 = k
      · rw [if_pos he] at h
        rcases List.mem_cons.mp h with h1 | h2
        · exact Or.inl h1
        · exact Or.inr (List.mem_cons.mpr (Or.inr h2))
      · rw [if_neg he] at h
        rcases List.mem_cons.mp h with h1 | h2
        · exact Or.inr (List.mem_cons.mpr (Or.inl h1))
        · rcases ih k v kv h2 with h3 | h4
          · exact Or.inl h3
          · exact Or.inr (List.mem_cons.mpr (Or.inr h4))

theorem lookup_insertA_isSome {β : Type} :
    ∀ (m : List (HumanId × β)) (k : HumanId) (v : β) (k' : HumanId),
      (((insertA m k v).lookup k').isSome = true) ↔
        (k' = k ∨ ((m.lookup k').isSome = true)) := by
  intro m
  induction m with
  | nil =>
      intro k v k'
      by_cases he : k' = k
      · subst he
        simp [insertA, List.lookup]
      · have hbeq : (k' == k) = false := beq_eq_false_iff_ne.mpr he
        simp [insertA, List.lookup, hbeq, he]
  | cons hd t ih =>
      obtain ⟨k0, v0⟩ := hd
      intro k v k'
      unfold insertA
      by_cases h0 : k0 = k
      · rw [if_pos h0]
        by_cases he : k' = k
        · have hb : (k' == k) = true := beq_iff_eq.mpr he
          simp [List.lookup, hb, he]
        · have hb : (k' == k) = false := beq_eq_false_iff_ne.mpr he
          have hb0 : (k' == k0) = false := by rw [h0]; exact hb
          simp [List.lookup, hb, hb0, he]
      · rw [if_neg h0]
        by_cases he0 : k' = k0
        · have hb0 : (k' == k0) = true := beq_iff_eq.mpr he0
          have hne : k' ≠ k := fun hc => h0 (hc ▸ he0.symm)
          simp [List.lookup, hb0, hne]
        · have hb0 : (k' == k0) = false := beq_eq_false_iff_ne.mpr he0
          simp only [List.lookup, hb0]
          exact ih k v k'

theorem foldl_insertA_mem {α β : Type} (cond : α → Prop) [DecidablePred cond]
    (key : α → HumanId) (payload : α → β) (P : β → Prop)
    (hpay : ∀ a, cond a → P (payload a)) :
    ∀ (entries : List α) (m : List (HumanId × β)), (∀ kv ∈ m, P kv.2) →
      ∀ kv ∈ entries.foldl
        (fun m e => if cond e then insertA m (key e) (payload e) else m) m,
        P kv.2 := by
  intro entries
  induction entries with
  | nil => intro m hm kv h; exact hm kv h
  | cons e t ih =>
      intro m hm kv h
      simp only [List.foldl_cons] at h
      refine ih _ ?_ kv h
      intro kv' hkv'
      by_cases hc : cond e
      · rw [if_pos hc] at hkv'
        rcases mem_insertA m (key e) (payload e) kv' hkv' with h1 | h2
        · rw [h1]; exact hpay e hc
        · exact hm kv' h2
      · rw [if_neg hc] at hkv'
        exact hm kv' hkv'

theorem foldl_insertA_contains {α β : Type} (cond : α → Prop)
    [DecidablePred cond] (key : α → HumanId) (payload : α → β) :
    ∀ (entries : List α) (m : List (HumanId × β)) (k : HumanId),
      (((entries.foldl
          (fun m e => if cond e then insertA m (key e) (payload e) else m)
          m).lookup k).isSome = true) ↔
        (((m.lookup k).isSome = true) ∨
          ∃ e ∈ entries, key e = k ∧ cond e) := by
  intro entries
  induction entries with
  | nil =>
      intro m k
      simp
  | cons e t ih =>
      intro m k
      simp only [List.foldl_cons]
      rw [ih]
      by_cases hc : cond e
      · rw [if_pos hc, lookup_insertA_isSome]
        constructor
        · rintro (⟨hk | hm⟩ | ht)
          · exact Or.inr ⟨e, List.mem_cons_self e t, hk.symm, hc⟩
          · exact Or.inl hm
          · rcases ht with ⟨e', he', hk', hc'⟩
            exact Or.inr ⟨e', List.mem_cons.mpr (Or.inr he'), hk', hc'⟩
        · rintro (hm | ⟨e', he', hk', hc'⟩)
          · exact Or.inl (Or.inr hm)
          · rcases List.mem_cons.mp he' with he0 | het
            · subst he0
              exact Or.inl (Or.inl hk'.symm)
            · exact Or.inr ⟨e', het, hk', hc'⟩
      · rw [if_neg hc]
        constructor
        · rintro (hm | ⟨e', he', hk', hc'⟩)
          · exact Or.inl hm
          · exact Or.inr ⟨e', List.mem_cons.mpr (Or.inr he'), hk', hc'⟩
        · rintro (hm | ⟨e', he', hk', hc'⟩)
          · exact Or.inl hm
          · rcases List.mem_cons.mp he' with he0 | het
            · subst he0
              exact absurd hc' hc
            · exact Or.inr ⟨e', het, hk', hc'⟩

theorem lookup_filter_key {β : Type} (p : HumanId → Bool) :
    ∀ (l : List (HumanId × β)) (k : HumanId),
      ((l.filter (fun kv => p kv.1)).lookup k).isSome =
        (((l.lookup k).isSome) && p k) := by
  intro l
  induction l with
  | nil => intro k; rfl
  | cons hd t ih =>
      obtain ⟨k0, v0⟩ := hd
      intro k
      by_cases hp : p k0 = true
      · rw [List.filter_cons_of_pos (by simpa using hp)]
        by_cases he : k = k0
        · subst he
          simp [List.lookup, hp]
        · have hb : (k == k0) = false := beq_eq_false_iff_ne.mpr he
          simp only [List.lookup, hb]
          exact ih k
      · rw [List.filter_cons_of_neg (by simpa using hp)]
        by_cases he : k = k0
        · subst he
          have hpk : p k = false := by
            cases hpk : p k
            · rfl
            · exact absurd hpk hp
          rw [ih k]
          simp [List.lookup, hpk]
        · have hb : (k == k0) = false := beq_eq_false_iff_ne.mpr he
          rw [ih k]
          simp only [List.lookup, hb]

/-- Every value stored by the start/goal insertion loop has a valid
quaternion. -/
theorem buildStarts_values_valid (entries : List AgentPose) :
    ∀ kv ∈ buildStarts entries,
      isQuaternionValid kv.2.orientation = true := by
  unfold buildStarts
  exact foldl_insertA_mem
    (fun e => isQuaternionValid e.pose.orientation = true)
    AgentPose.human_id AgentPose.pose
    (fun p => isQuaternionValid p.orientation = true)
    (fun a h => h) entries [] (by intro kv h; cases h)

/-- Every sub-goal list stored by the sub-goal insertion loop contains
only poses with valid quaternions. -/
theorem buildSubGoals_values_valid (entries : List AgentPoses) :
    ∀ kv ∈ buildSubGoals entries, ∀ p ∈ kv.2,
      isQuaternionValid p.orientation = true := by
  unfold buildSubGoals
  exact foldl_insertA_mem
    (fun e => 0 < (e.poses.filter
      (fun p => isQuaternionValid p.orientation)).length)
    AgentPoses.human_id
    (fun e => e.poses.filter (fun p => isQuaternionValid p.orientation))
    (fun v => ∀ p ∈ v, isQuaternionValid p.orientation = true)
    (fun a _ p hp => (List.mem_filter.mp hp).2) entries []
    (by intro kv h; cases h)

/-- Destructor for a successful `validateGoals` run: the produced triple
is the reconciliation of the per-pose-filtered maps, and the reconciled
starts and goals are non-empty. -/
theorem validateGoals_some {g : MHGoalMsg}
    {s : List (HumanId × PoseQ)} {sb : List (HumanId × List PoseQ)}
    {gl : List (HumanId × PoseQ)}
    (h : validateGoals g = some (s, sb, gl)) :
    (s, sb, gl) = reconcile (buildStarts g.start_poses)
      (buildStarts g.goal_poses) (buildSubGoals g.sub_goal_poses) ∧
    s ≠ [] ∧ gl ≠ [] := by
  unfold validateGoals at h
  split at h
  · cases h
  split at h
  · cases h
  split at h
  · cases h
  split at h
  · cases h
  next hcond =>
    rw [Option.some_inj] at h
    push_neg at hcond
    refine ⟨h.symm, ?_, ?_⟩
    · intro hnil
      rw [hnil] at h
      have := congrArg (fun r => r.1) h.symm
      simp only at this
      exact hcond.1 (by rw [← this]; rfl)
    · intro hnil
      rw [hnil] at h
      have := congrArg (fun r => r.2.2) h.symm
      simp only at this
      exact hcond.2 (by rw [← this]; rfl)

/-! ## C5: dropping invalid quaternions -/

/-- C5: any pose whose orientation fails the quaternion check never
appears in the produced start, goal or sub-goal maps; a quaternion with
a NaN/Inf component, or with squared norm below 1e-12 (norm below 1e-6),
or whose rotated z-axis has vertical cosine below 0.9984 (deviation
beyond ≈0.057 rad) always fails the check; and an entry is present in a
per-pose-filtered map exactly when some entry of the batch carries its
id with a valid quaternion — the remaining poses are processed
regardless of the dropped ones. -/
theorem validateGoals_drops_invalid (g : MHGoalMsg) :
    (∀ s sb gl, validateGoals g = some (s, sb, gl) →
      (∀ k p, s.lookup k = some p →
        isQuaternionValid p.orientation = true) ∧
      (∀ k p, gl.lookup k = some p →
        isQuaternionValid p.orientation = true) ∧
      (∀ k v, sb.lookup k = some v →
        ∀ p ∈ v, isQuaternionValid p.orientation = true)) ∧
    (∀ q : QuatC, quatFinite q = false → isQuaternionValid q = false) ∧
    (∀ a b c d : ℚ, a ^ 2 + b ^ 2 + c ^ 2 + d ^ 2 < 1 / 10 ^ 12 →
      isQuaternionValid
        ⟨FVal.fin a, FVal.fin b, FVal.fin c, FVal.fin d⟩ = false) ∧
    (∀ a b c d : ℚ, zAxisDot a b c d < 624 / 625 →
      isQuaternionValid
        ⟨FVal.fin a, FVal.fin b, FVal.fin c, FVal.fin d⟩ = false) ∧
    (∀ (entries : List AgentPose) (k : HumanId),
      (((buildStarts entries).lookup k).isSome = true) ↔
        ∃ e ∈ entries, e.human_id = k ∧
          isQuaternionValid e.pose.orientation = true) := by
  refine ⟨?_, ?_, ?_, ?_, ?_⟩
  · intro s sb gl h
    obtain ⟨heq, -, -⟩ := validateGoals_some h
    have hs : s = (reconcile (buildStarts g.start_poses)
        (buildStarts g.goal_poses) (buildSubGoals g.sub_goal_poses)).1 := by
      rw [← heq]
    have hgl : gl = (reconcile (buildStarts g.start_poses)
        (buildStarts g.goal_poses) (buildSubGoals g.sub_goal_poses)).2.2 := by
      rw [← heq]
    have hsb : sb = (reconcile (buildStarts g.start_poses)
        (buildStarts g.goal_poses) (buildSubGoals g.sub_goal_poses)).2.1 := by
      rw [← heq]
    refine ⟨?_, ?_, ?_⟩
    · intro k p hl
      have hmem := mem_of_lookup_eq_some hl
      rw [hs] at hmem
      unfold reconcile at hmem
      simp only at hmem
      exact buildStarts_values_valid g.start_poses (k, p)
        (List.mem_of_mem_filter hmem)
    · intro k p hl
      have hmem := mem_of_lookup_eq_some hl
      rw [hgl] at hmem
      unfold reconcile at hmem
      simp only at hmem
      exact buildStarts_values_valid g.goal_poses (k, p)
        (List.mem_of_mem_filter hmem)
    · intro k v hl
      have hmem := mem_of_lookup_eq_some hl
      rw [hsb] at hmem
      unfold reconcile at hmem
      simp only at hmem
      exact buildSubGoals_values_valid g.sub_goal_poses (k, v)
        (List.mem_of_mem_filter (List.mem_of_mem_filter hmem))
  · intro q hq
    unfold isQuaternionValid
    unfold quatFinite at hq
    rcases q with ⟨x, y, z, w⟩
    cases x <;> cases y <;> cases z <;> cases w <;> first | rfl | cases hq
  · intro a b c d hsum
    have hlt : a ^ 2 + b ^ 2 + c ^ 2 + d ^ 2 < 1 / 1000000 := by
      calc a ^ 2 + b ^ 2 + c ^ 2 + d ^ 2 < 1 / 10 ^ 12 := hsum
        _ < 1 / 1000000 := by norm_num
    show (if a ^ 2 + b ^ 2 + c ^ 2 + d ^ 2 < 1 / 1000000 then false
      else if 1 / 1000 <
          2 * (a ^ 2 + b ^ 2) / (a ^ 2 + b ^ 2 + c ^ 2 + d ^ 2) then false
      else true) = false
    rw [if_pos hlt]
  · intro a b c d hz
    show (if a ^ 2 + b ^ 2 + c ^ 2 + d ^ 2 < 1 / 1000000 then false
      else if 1 / 1000 <
          2 * (a ^ 2 + b ^ 2) / (a ^ 2 + b ^ 2 + c ^ 2 + d ^ 2) then false
      else true) = false
    by_cases hsmall : a ^ 2 + b ^ 2 + c ^ 2 + d ^ 2 < 1 / 1000000
    · rw [if_pos hsmall]
    · rw [if_neg hsmall]
      unfold zAxisDot at hz
      rw [if_pos (by linarith)]
  · intro entries k
    unfold buildStarts
    rw [foldl_insertA_contains
      (fun e => isQuaternionValid e.pose.orientation = true)
      AgentPose.human_id AgentPose.pose entries [] k]
    simp

/-- Witness for C5 at a concrete NaN-component quaternion. -/
theorem validateGoals_drops_invalid_witness :
    isQuaternionValid
      ⟨FVal.fin 0, FVal.fin 0, FVal.fin 0, FVal.nonfinite⟩ = false := by
  exact (validateGoals_drops_invalid
    { start_poses := [], goal_poses := [], sub_goal_poses := [] }).2.1
    ⟨FVal.fin 0, FVal.fin 0, FVal.fin 0, FVal.nonfinite⟩ rfl

/-! ## C6: reconciliation -/

/-- C6: whenever `validateGoals` succeeds, the reconciled start and goal
maps contain exactly the same ids; a surviving sub-goal entry whose id
had a filtered start (resp. goal) still has its reconciled start (resp.
goal), so removed agents lost their sub-goal entries; and success
implies both reconciled maps are non-empty (an empty one makes the
whole request fail). -/
theorem validateGoals_reconciled (g : MHGoalMsg)
    (s : List (HumanId × PoseQ)) (sb : List (HumanId × List PoseQ))
    (gl : List (HumanId × PoseQ))
    (h : validateGoals g = some (s, sb, gl)) :
    (∀ k, ((s.lookup k).isSome = true) ↔ ((gl.lookup k).isSome = true)) ∧
    (∀ k, ((sb.lookup k).isSome = true) →
      (((buildStarts g.start_poses).lookup k).isSome = true) →
      ((s.lookup k).isSome = true)) ∧
    (∀ k, ((sb.lookup k).isSome = true) →
      (((buildStarts g.goal_poses).lookup k).isSome = true) →
      ((gl.lookup k).isSome = true)) ∧
    s ≠ [] ∧ gl ≠ [] := by
  obtain ⟨heq, hsne, hglne⟩ := validateGoals_some h
  have hs : s = (buildStarts g.start_poses).filter
      (fun kv => ((buildStarts g.goal_poses).lookup kv.1).isSome) := by
    have := congrArg (fun r => r.1) heq
    simpa [reconcile] using this
  have hgl : gl = (buildStarts g.goal_poses).filter
      (fun kv => (((buildStarts g.start_poses).filter
        (fun kv => ((buildStarts g.goal_poses).lookup kv.1).isSome)).lookup
          kv.1).isSome) := by
    have := congrArg (fun r => r.2.2) heq
    simpa [reconcile] using this
  have hsb : sb = ((buildSubGoals g.sub_goal_poses).filter
      (fun kv => !(((buildStarts g.start_poses).lookup kv.1).isSome &&
        !((buildStarts g.goal_poses).lookup kv.1).isSome))).filter
      (fun kv => !(((buildStarts g.goal_poses).lookup kv.1).isSome &&
        !(((buildStarts g.start_poses).filter
          (fun kv => ((buildStarts g.goal_poses).lookup kv.1).isSome)).lookup
            kv.1).isSome)) := by
    have := congrArg (fun r => r.2.1) heq
    simpa [reconcile] using this
  have hSlook : ∀ k, (s.lookup k).isSome =
      (((buildStarts g.start_poses).lookup k).isSome &&
        ((buildStarts g.goal_poses).lookup k).isSome) := by
    intro k
    rw [hs]
    exact lookup_filter_key
      (fun k => ((buildStarts g.goal_poses).lookup k).isSome)
      (buildStarts g.start_poses) k
  have hS1look : ∀ k, (((buildStarts g.start_poses).filter
      (fun kv => ((buildStarts g.goal_poses).lookup kv.1).isSome)).lookup
        k).isSome =
      (((buildStarts g.start_poses).lookup k).isSome &&
        ((buildStarts g.goal_poses).lookup k).isSome) := by
    intro k
    exact lookup_filter_key
      (fun k => ((buildStarts g.goal_poses).lookup k).isSome)
      (buildStarts g.start_poses) k
  have hGlook : ∀ k, (gl.lookup k).isSome =
      (((buildStarts g.goal_poses).lookup k).isSome &&
        (((buildStarts g.start_poses).lookup k).isSome &&
          ((buildStarts g.goal_poses).lookup k).isSome)) := by
    intro k
    rw [hgl]
    rw [lookup_filter_key
      (fun k => (((buildStarts g.start_poses).filter
        (fun kv => ((buildStarts g.goal_poses).lookup kv.1).isSome)).lookup
          k).isSome)
      (buildStarts g.goal_poses) k]
    rw [hS1look k]
  have hBlook : ∀ k, (sb.lookup k).isSome =
      ((((buildSubGoals g.sub_goal_poses).lookup k).isSome &&
        !(((buildStarts g.start_poses).lookup k).isSome &&
          !((buildStarts g.goal_poses).lookup k).isSome)) &&
        !(((buildStarts g.goal_poses).lookup k).isSome &&
          !(((buildStarts g.start_poses).lookup k).isSome &&
            ((buildStarts g.goal_poses).lookup k).isSome))) := by
    intro k
    rw [hsb]
    rw [lookup_filter_key
      (fun k => !(((buildStarts g.goal_poses).lookup k).isSome &&
        !(((buildStarts g.start_poses).filter
          (fun kv => ((buildStarts g.goal_poses).lookup kv.1).isSome)).lookup
            k).isSome))]
    rw [lookup_filter_key
      (fun k => !(((buildStarts g.start_poses).lookup k).isSome &&
        !((buildStarts g.goal_poses).lookup k).isSome))]
    rw [hS1look k]
  refine ⟨?_, ?_, ?_, hsne, hglne⟩
  · intro k
    rw [hSlook k, hGlook k]
    cases ((buildStarts g.start_poses).lookup k).isSome <;>
      cases ((buildStarts g.goal_poses).lookup k).isSome <;> simp
  · intro k hb hstart
    rw [hBlook k] at hb
    rw [hSlook k, hstart]
    rw [hstart] at hb
    cases hgk : ((buildStarts g.goal_poses).lookup k).isSome
    · rw [hgk] at hb
      simp at hb
    · simp
  · intro k hb hgoal
    rw [hBlook k] at hb
    rw [hGlook k, hgoal]
    rw [hgoal] at hb
    cases hsk : ((buildStarts g.start_poses).lookup k).isSome
    · rw [hsk] at hb
      simp at hb
    · simp

/-- The identity quaternion (valid). -/
def qId : QuatC := ⟨FVal.fin 0, FVal.fin 0, FVal.fin 0, FVal.fin 1⟩

/-- A quaternion with a non-finite component (always dropped). -/
def qBadQ : QuatC := ⟨FVal.fin 0, FVal.fin 0, FVal.fin 0, FVal.nonfinite⟩

def poseA : PoseQ :=
  { frame := "map", px := 1, py := 1, pz := 0, orientation := qId }

def poseBad : PoseQ := { poseA with orientation := qBadQ }

/-- A request with one fully valid agent, one agent whose start pose has
a bad quaternion, one goal for an agent without a start, and one
sub-goal list. -/
def exMsg : MHGoalMsg :=
  { start_poses := [⟨1, poseA⟩, ⟨2, poseBad⟩],
    goal_poses := [⟨1, poseA⟩, ⟨3, poseA⟩],
    sub_goal_poses := [⟨1, [poseA]⟩] }

/-- Concrete evaluation of `validateGoals` on `exMsg`: agent 2's start
and agent 3's goal vanish, agent 1 survives everywhere. -/
theorem exMsg_eval : validateGoals exMsg =
    some ([(1, poseA)], [(1, [poseA])], [(1, poseA)]) := by
  norm_num [validateGoals, exMsg, framesOk, buildStarts, buildSubGoals,
    reconcile, insertA, isQuaternionValid, poseA, poseBad, qId, qBadQ,
    List.lookup, List.filter]
  rfl

/-- Witness for C6 at the concrete request. -/
theorem validateGoals_reconciled_witness :
    (∀ k : HumanId,
      ((([(1, poseA)] : List (HumanId × PoseQ)).lookup k).isSome = true) ↔
      ((([(1, poseA)] : List (HumanId × PoseQ)).lookup k).isSome = true)) ∧
    ([(1, poseA)] : List (HumanId × PoseQ)) ≠ [] := by
  have h := validateGoals_reconciled exMsg [(1, poseA)] [(1, [poseA])]
    [(1, poseA)] exMsg_eval
  exact ⟨h.1, h.2.2.2.1⟩

end HanpSim
